import Mathlib

/-!
Verification development for the bevy-ui-experiment-dazzle N-body simulator
(src/main.rs).  The `f32` arithmetic of the source is modelled by exact real
arithmetic (rounding and overflow idealized away); an `f32` 3-vector value is
`Option Vec3`, with `none` standing for a vector holding non-finite (NaN/inf)
components, so that IEEE NaN propagation is modelled by `none` being absorbing
for the vector operations.  ECS entity ids are `ℕ`; the `HashMap`s of the
source are association lists, with arbitrary iteration orders handled through
`List.Perm` and key uniqueness (an ECS invariant) as `Nodup` hypotheses.
-/

namespace Dazzle

/-- Model of glam's `Vec3` of `f32` components, with exact real arithmetic. -/
@[ext] structure Vec3 where
  x : ℝ
  y : ℝ
  z : ℝ

def Vec3.add (a b : Vec3) : Vec3 := Vec3.mk (a.x + b.x) (a.y + b.y) (a.z + b.z)

def Vec3.sub (a b : Vec3) : Vec3 := Vec3.mk (a.x - b.x) (a.y - b.y) (a.z - b.z)

/-- Multiplication of a vector by a scalar on the right, glam's `Vec3 * f32`. -/
def Vec3.smul (a : Vec3) (c : ℝ) : Vec3 := Vec3.mk (a.x * c) (a.y * c) (a.z * c)

/-- Division of a vector by a scalar, glam's `Vec3 / f32`. -/
noncomputable def Vec3.divs (a : Vec3) (c : ℝ) : Vec3 :=
  Vec3.mk (a.x / c) (a.y / c) (a.z / c)

def Vec3.length_squared (a : Vec3) : ℝ := a.x * a.x + a.y * a.y + a.z * a.z

noncomputable def Vec3.length (a : Vec3) : ℝ := Real.sqrt a.length_squared

/-- Model of glam's `Vec3::normalize`, `self * self.length_recip()`.  Only ever
used on a nonzero vector here: the zero-vector case (where IEEE gives NaN) is
handled in `calculate_dt_velocity` by returning the non-finite value `none`. -/
noncomputable def Vec3.normalize (a : Vec3) : Vec3 := a.smul (1 / a.length)

/-- Model of glam's `Vec3::distance_squared`. -/
def Vec3.distance_squared (a b : Vec3) : ℝ := (a.sub b).length_squared

/-- Addition of possibly non-finite `f32` vectors: `none` (non-finite) absorbs,
as NaN does in IEEE arithmetic. -/
def ovAdd : Option Vec3 → Option Vec3 → Option Vec3
  | some a, some b => some (a.add b)
  | _, _ => none

/-- Scalar multiplication of a possibly non-finite `f32` vector by a finite
scalar: `none` (non-finite) propagates. -/
def ovSmul : Option Vec3 → ℝ → Option Vec3
  | some a, c => some (a.smul c)
  | none, _ => none

/-- One live simulation body: the ECS entity id together with the fields the
core reads and writes, the `Celestial` component (`mass`, `velocity`) and the
`Transform` translation (src/main.rs:29-33). -/
structure Body where
  id : ℕ
  mass : ℝ
  velocity : Option Vec3
  translation : Option Vec3

/-- Model of `CelestialBundle` (src/main.rs:130-134). -/
structure CelestialBundle where
  pos : Option Vec3
  vel : Option Vec3
  mass : ℝ

/-- Model of `CelestialMap`'s `HashMap<Entity, CelestialBundle>`
(src/main.rs:136-138) as an association list; one iteration order is the list
order, other orders are reached through `List.Perm`. -/
abbrev CelestialMap := List (ℕ × CelestialBundle)

/-- Model of the `Universe` resource (src/main.rs:35-41). -/
structure Universe where
  active : Bool
  gravitational_constant : ℝ
  update_frequency_ms : ℕ
  debug_steps : ℕ

/-- Model of `Universe::default` (src/main.rs:48-57). -/
noncomputable def Universe.default : Universe := Universe.mk false 0.05 34 1000

/-- Model of `handle_delta` (src/main.rs:76-88): advance the repeating timer's
accumulated time by the frame delta; once it reaches the configured interval,
reset the accumulator to zero and emit one `UniverseTickEvent` whose payload is
the configured `1.0 / update_frequency_ms`, a constant that does not mention
the measured delta.  Times are in milliseconds; the result is the new
accumulator together with the emitted event, if any. -/
noncomputable def handle_delta (elapsed delta interval : ℝ) (constants : Universe) :
    ℝ × Option ℝ :=
  if interval ≤ elapsed + delta then
    (0, some (1 / (constants.update_frequency_ms : ℝ)))
  else (elapsed + delta, none)

/-- Model of `calculate_dt_velocity` (src/main.rs:184-193).  The `f32` input
vectors may be non-finite (`none`), and on finite inputs with a zero squared
distance (exactly coincident positions) the source normalizes the zero vector
and divides by zero, which yields NaN in IEEE arithmetic: both cases are the
non-finite result `none`.  There is no guard in the source. -/
noncomputable def calculate_dt_velocity (gravitational_constant : ℝ)
    (this_translation that_translation : Option Vec3) (that_mass : ℝ) : Option Vec3 :=
  match this_translation, that_translation with
  | some a, some b =>
      if Vec3.distance_squared a b = 0 then none
      else
        some ((((b.sub a).normalize.smul gravitational_constant).smul that_mass).divs
          (Vec3.distance_squared a b))
  | _, _ => none

/-- Model of `calculate_celestial_velocities` (src/main.rs:159-182): for every
map entry, accumulate onto its current velocity the contribution of every
other entry (skipping the entry with the same key), each scaled by the tick,
and record the result under the entry's key. -/
noncomputable def calculate_celestial_velocities (tick : ℝ) (constants : Universe)
    (celestial_map : CelestialMap) : List (ℕ × Option Vec3) :=
  celestial_map.map fun this_e =>
    (this_e.1,
      celestial_map.foldl
        (fun current_velocity that_e =>
          if this_e.1 = that_e.1 then current_velocity
          else
            ovAdd current_velocity
              (ovSmul
                (calculate_dt_velocity constants.gravitational_constant this_e.2.pos
                  that_e.2.pos that_e.2.mass)
                tick))
        this_e.2.vel)

/-- One row of `build_celestial_maps`: the map entry made from one body. -/
def toBundle (b : Body) : ℕ × CelestialBundle :=
  (b.id, CelestialBundle.mk b.translation b.velocity b.mass)

/-- Model of `build_celestial_maps` (src/main.rs:140-157): snapshot the live
query into a fresh map, copying each body's position, velocity and mass. -/
def build_celestial_maps (store : List Body) : CelestialMap := store.map toBundle

/-- Model of `HashMap::remove`: take the entry with the given key out of the
velocity map, returning its value and the remaining map. -/
def removeAssoc (k : ℕ) :
    List (ℕ × Option Vec3) → Option (Option Vec3 × List (ℕ × Option Vec3))
  | [] => none
  | (k', v) :: rest =>
      if k = k' then some (v, rest)
      else (removeAssoc k rest).map fun p => (p.1, (k', v) :: p.2)

/-- Model of `HashMap::get` on the velocity map. -/
def lookupAssoc (k : ℕ) : List (ℕ × Option Vec3) → Option (Option Vec3)
  | [] => none
  | (k', v) :: rest => if k = k' then some v else lookupAssoc k rest

/-- Model of the mutation loop of `update_celestial_bodies`
(src/main.rs:121-127): walk the live query, take each body's new velocity out
of the computed map (`remove(..).expect(..)`; a missing entry panics, modelled
by the whole result being `none`), then advance the translation by the new
velocity times the tick. -/
def applyVelocities (tick : ℝ) :
    List (ℕ × Option Vec3) → List Body → Option (List Body)
  | _, [] => some []
  | vmap, b :: rest =>
      match removeAssoc b.id vmap with
      | none => none
      | some (v, vmap') =>
          (applyVelocities tick vmap' rest).map fun tail =>
            Body.mk b.id b.mass v (ovAdd b.translation (ovSmul v tick)) :: tail

/-- Model of `update_celestial_bodies` with the snapshot map passed explicitly;
the source builds the map inside, and the map's iteration order is the
`HashMap`'s, hence arbitrary — this factored form lets that order vary. -/
noncomputable def update_bodies_with_map (tick : ℝ) (constants : Universe)
    (celestial_map : CelestialMap) (store : List Body) : Option (List Body) :=
  applyVelocities tick (calculate_celestial_velocities tick constants celestial_map) store

/-- Model of `update_celestial_bodies` (src/main.rs:114-128). -/
noncomputable def update_celestial_bodies (tick : ℝ) (constants : Universe)
    (store : List Body) : Option (List Body) :=
  update_bodies_with_map tick constants (build_celestial_maps store) store

/-- Model of `update_celestial_bodies_event_reader` (src/main.rs:90-112): take
the last scheduled tick event, if any, and gate it on `active`; only when no
event at all arrived does a pressed `T` key forge a forced tick carrying the
nominal dt.  The result is the store after the system ran. -/
noncomputable def update_celestial_bodies_event_reader (events : List ℝ)
    (constants : Universe) (t_pressed : Bool) (store : List Body) : Option (List Body) :=
  let tick : Option ℝ :=
    match events.getLast? with
    | some t => if constants.active then some t else none
    | none =>
        if t_pressed then some (1 / (constants.update_frequency_ms : ℝ)) else none
  match tick with
  | some t => update_celestial_bodies t constants store
  | none => some store

/-- Model of the body update inside one forecast iteration of
`generate_debug_points` (src/main.rs:218-223): look each entry's new velocity
up (`velocities.get(entity).unwrap()`; a missing entry panics, modelled by
`none`), store it in the bundle, and advance the bundle position by it. -/
def step_bundles (tick : ℝ) (velocities : List (ℕ × Option Vec3)) :
    CelestialMap → Option CelestialMap
  | [] => some []
  | (e, bundle) :: rest =>
      match lookupAssoc e velocities with
      | none => none
      | some v =>
          (step_bundles tick velocities rest).map fun tail =>
            (e, CelestialBundle.mk (ovAdd bundle.pos (ovSmul v tick)) v bundle.mass) :: tail

/-- One forecast iteration (src/main.rs:217-223): compute the velocities of the
working map, then update every bundle. -/
noncomputable def forecast_step (tick : ℝ) (constants : Universe) (m : CelestialMap) :
    Option CelestialMap :=
  step_bundles tick (calculate_celestial_velocities tick constants m) m

/-- Positions recorded in one forecast iteration:
`positions.push((*entity, bundle.pos))` runs right after the bundle update, so
the sample is each entry's new position. -/
def posList (m : CelestialMap) : List (ℕ × Option Vec3) :=
  m.map fun eb => (eb.1, eb.2.pos)

/-- Model of the `for _ in 0..constants.debug_steps` loop of
`generate_debug_points` (src/main.rs:216-224): iterate the forecast on the
working map, returning the final map and the flat list of all recorded
`(entity, position)` samples in push order. -/
noncomputable def generate_debug_points_loop (tick : ℝ) (constants : Universe) :
    ℕ → CelestialMap → Option (CelestialMap × List (ℕ × Option Vec3))
  | 0, m => some (m, [])
  | n + 1, m =>
      match forecast_step tick constants m with
      | none => none
      | some m' =>
          (generate_debug_points_loop tick constants n m').map fun p =>
            (p.1, posList m' ++ p.2)

/-- Model of `generate_debug_points` (src/main.rs:195-247) restricted to its
effect on the live bodies and to the computed forecast samples: early return
unless `D` was just pressed; with `C` also pressed only presentation markers
are despawned; otherwise forecast `debug_steps` iterations on a private copy of
the store, with the nominal tick.  The live store is returned alongside: the
source only ever reads the celestial query, it has no write to it. -/
noncomputable def generate_debug_points (d_pressed c_pressed : Bool)
    (constants : Universe) (store : List Body) :
    List Body × Option (List (ℕ × Option Vec3)) :=
  if ¬ d_pressed then (store, none)
  else if c_pressed then (store, none)
  else
    match
      generate_debug_points_loop (1 / (constants.update_frequency_ms : ℝ)) constants
        constants.debug_steps (build_celestial_maps store) with
    | none => (store, none)
    | some p => (store, some p.2)

/-- Modelled from the spec, section 4.3: the displayed pairwise acceleration
formula, `normalize(pos_j - pos_i) * G * mass_j / squared_distance`, over
possibly non-finite `f32` vectors (the zero-distance case is the non-finite
value, spec section 4.3's edge case). -/
noncomputable def spec_accel (g : ℝ) (pos_i pos_j : Option Vec3) (mass_j : ℝ) :
    Option Vec3 :=
  match pos_i, pos_j with
  | some a, some b =>
      if Vec3.distance_squared a b = 0 then none
      else
        some ((((b.sub a).normalize.smul g).smul mass_j).divs (Vec3.distance_squared a b))
  | _, _ => none

/-- Modelled from the spec, section 4.3: the new velocity of one body,
accumulating `accel * dt` over every other body of the pre-tick snapshot. -/
noncomputable def specVelocity (dt g : ℝ) (snapshot : List Body) (b : Body) :
    Option Vec3 :=
  snapshot.foldl
    (fun v other =>
      if b.id = other.id then v
      else ovAdd v (ovSmul (spec_accel g b.translation other.translation other.mass) dt))
    b.velocity

/-- Modelled from the spec, section 4.3: one semi-implicit Euler step — every
body's velocity computed from the pre-tick snapshot only (simultaneous
update), then `position += new velocity * dt`. -/
noncomputable def semiImplicitEulerStep (dt g : ℝ) (snapshot : List Body) : List Body :=
  snapshot.map fun b =>
    Body.mk b.id b.mass (specVelocity dt g snapshot b)
      (ovAdd b.translation (ovSmul (specVelocity dt g snapshot b) dt))

/-- Inner accumulation of `calculate_celestial_velocities` for a single map
entry, named so the computed velocity can be spoken about directly. -/
noncomputable def velFold (tick g : ℝ) (m : CelestialMap) (this_e : ℕ × CelestialBundle) :
    Option Vec3 :=
  m.foldl
    (fun current_velocity that_e =>
      if this_e.1 = that_e.1 then current_velocity
      else
        ovAdd current_velocity
          (ovSmul (calculate_dt_velocity g this_e.2.pos that_e.2.pos that_e.2.mass) tick))
    this_e.2.vel

/-- Running the live system `n` ticks in a row (the next `n` accepted ticks). -/
noncomputable def live_run (dt : ℝ) (constants : Universe) :
    ℕ → List Body → Option (List Body)
  | 0, s => some s
  | n + 1, s =>
      match update_celestial_bodies dt constants s with
      | none => none
      | some s' => live_run dt constants n s'

/-- Iterating the explicit semi-implicit Euler step `n` times. -/
noncomputable def stepIter (dt g : ℝ) : ℕ → List Body → List Body
  | 0, s => s
  | n + 1, s => stepIter dt g n (semiImplicitEulerStep dt g s)

/-- Explicit closed form of one forecast iteration on the working map. -/
noncomputable def advMap (tick : ℝ) (cfg : Universe) (m : CelestialMap) : CelestialMap :=
  m.map fun eb =>
    (eb.1,
      CelestialBundle.mk
        (ovAdd eb.2.pos (ovSmul (velFold tick cfg.gravitational_constant m eb) tick))
        (velFold tick cfg.gravitational_constant m eb) eb.2.mass)

/-- Iterating the explicit forecast step `n` times. -/
noncomputable def advIter (tick : ℝ) (cfg : Universe) : ℕ → CelestialMap → CelestialMap
  | 0, m => m
  | n + 1, m => advIter tick cfg n (advMap tick cfg m)

@[simp] theorem ovAdd_none_left (v : Option Vec3) : ovAdd none v = none := rfl

@[simp] theorem ovAdd_none_right (v : Option Vec3) : ovAdd v none = none := by
  cases v <;> rfl

@[simp] theorem ovAdd_some_some (a b : Vec3) : ovAdd (some a) (some b) = some (a.add b) :=
  rfl

@[simp] theorem ovSmul_none (c : ℝ) : ovSmul none c = none := rfl

@[simp] theorem ovSmul_some (a : Vec3) (c : ℝ) : ovSmul (some a) c = some (a.smul c) :=
  rfl

theorem Vec3.add_right_comm (a b c : Vec3) : (a.add b).add c = (a.add c).add b := by
  simp only [Vec3.add, Vec3.mk.injEq]
  exact ⟨by ring, by ring, by ring⟩

theorem ovAdd_right_comm (c x y : Option Vec3) :
    ovAdd (ovAdd c x) y = ovAdd (ovAdd c y) x := by
  cases c <;> cases x <;> cases y <;>
    simp only [ovAdd, Vec3.add_right_comm]

theorem calc_velocities_eq_map (tick : ℝ) (cfg : Universe) (m : CelestialMap) :
    calculate_celestial_velocities tick cfg m =
      m.map fun e => (e.1, velFold tick cfg.gravitational_constant m e) := rfl

theorem velFold_build (tick g : ℝ) (s : List Body) (b : Body) :
    velFold tick g (build_celestial_maps s) (toBundle b) = specVelocity tick g s b := by
  unfold velFold specVelocity build_celestial_maps
  rw [List.foldl_map]
  rfl

theorem applyVelocities_aligned (tick : ℝ) (f : Body → Option Vec3) (store : List Body) :
    applyVelocities tick (store.map fun b => (b.id, f b)) store =
      some (store.map fun b =>
        Body.mk b.id b.mass (f b) (ovAdd b.translation (ovSmul (f b) tick))) := by
  induction store with
  | nil => rfl
  | cons b rest ih => simp [applyVelocities, removeAssoc, ih]

/-- One live tick always goes through (`remove(..).expect(..)` cannot fire: the
velocity map is built from the same snapshot, in the same order), and is
exactly the semi-implicit Euler step computed from the pre-tick snapshot. -/
theorem update_celestial_bodies_eq (tick : ℝ) (cfg : Universe) (store : List Body) :
    update_celestial_bodies tick cfg store =
      some (semiImplicitEulerStep tick cfg.gravitational_constant store) := by
  unfold update_celestial_bodies update_bodies_with_map
  have hcalc :
      calculate_celestial_velocities tick cfg (build_celestial_maps store) =
        store.map fun b => (b.id, specVelocity tick cfg.gravitational_constant store b) := by
    rw [calc_velocities_eq_map]
    unfold build_celestial_maps
    rw [List.map_map]
    congr 1
    funext b
    rw [Function.comp_apply, ← velFold_build]
    rfl
  rw [hcalc, applyVelocities_aligned]
  rfl

theorem live_run_eq (dt : ℝ) (cfg : Universe) (n : ℕ) (s : List Body) :
    live_run dt cfg n s = some (stepIter dt cfg.gravitational_constant n s) := by
  induction n generalizing s with
  | zero => rfl
  | succ n ih =>
      have h1 : live_run dt cfg (n + 1) s =
          live_run dt cfg n (semiImplicitEulerStep dt cfg.gravitational_constant s) := by
        rw [live_run, update_celestial_bodies_eq]
      rw [h1, ih]
      rfl

theorem lookupAssoc_map_self (g : ℕ × CelestialBundle → Option Vec3) :
    ∀ (m : CelestialMap), (m.map Prod.fst).Nodup → ∀ e ∈ m,
      lookupAssoc e.1 (m.map fun x => (x.1, g x)) = some (g e) := by
  intro m
  induction m with
  | nil => intro _ e he; cases he
  | cons a rest ih =>
      intro hnd e he
      have hnd' := List.nodup_cons.mp hnd
      rcases List.mem_cons.mp he with rfl | hmem
      · simp [lookupAssoc]
      · have hne : e.1 ≠ a.1 := by
          intro heq
          exact hnd'.1 (heq ▸ List.mem_map_of_mem Prod.fst hmem)
        simp only [List.map_cons, lookupAssoc, if_neg hne]
        exact ih hnd'.2 e hmem

theorem step_bundles_char (tick : ℝ) (velocities : List (ℕ × Option Vec3))
    (g : ℕ × CelestialBundle → Option Vec3) :
    ∀ m0 : CelestialMap, (∀ e ∈ m0, lookupAssoc e.1 velocities = some (g e)) →
      step_bundles tick velocities m0 =
        some (m0.map fun e =>
          (e.1, CelestialBundle.mk (ovAdd e.2.pos (ovSmul (g e) tick)) (g e) e.2.mass)) := by
  intro m0
  induction m0 with
  | nil => intro _; rfl
  | cons a rest ih =>
      intro h
      obtain ⟨e, bundle⟩ := a
      have ha := h (e, bundle) (List.mem_cons_self _ _)
      simp only [step_bundles, ha]
      rw [ih fun x hx => h x (List.mem_cons_of_mem _ hx)]
      rfl

/-- One forecast iteration on a working map with unique keys (a `HashMap`
invariant) always goes through (`get(..).unwrap()` cannot fire) and equals the
explicit closed form `advMap`. -/
theorem forecast_step_eq (tick : ℝ) (cfg : Universe) (m : CelestialMap)
    (hnd : (m.map Prod.fst).Nodup) :
    forecast_step tick cfg m = some (advMap tick cfg m) := by
  unfold forecast_step advMap
  rw [calc_velocities_eq_map]
  exact step_bundles_char tick _ _ m fun e he => lookupAssoc_map_self _ m hnd e he

theorem advMap_fst (tick : ℝ) (cfg : Universe) (m : CelestialMap) :
    (advMap tick cfg m).map Prod.fst = m.map Prod.fst := by
  unfold advMap
  rw [List.map_map]
  rfl

/-- The forecast iteration commutes with snapshotting: advancing the snapshot
of a store is snapshotting the advanced store. -/
theorem advMap_build (tick : ℝ) (cfg : Universe) (s : List Body) :
    advMap tick cfg (build_celestial_maps s) =
      build_celestial_maps (semiImplicitEulerStep tick cfg.gravitational_constant s) := by
  simp only [advMap, semiImplicitEulerStep, build_celestial_maps, List.map_map]
  congr 1
  funext b
  simp only [Function.comp_apply]
  rw [show velFold tick cfg.gravitational_constant (List.map toBundle s) (toBundle b) =
      specVelocity tick cfg.gravitational_constant s b from velFold_build tick _ s b]
  rfl

theorem advIter_build (tick : ℝ) (cfg : Universe) (n : ℕ) (s : List Body) :
    advIter tick cfg n (build_celestial_maps s) =
      build_celestial_maps (stepIter tick cfg.gravitational_constant n s) := by
  induction n generalizing s with
  | zero => rfl
  | succ n ih =>
      rw [advIter, advMap_build, ih]
      rfl

theorem posList_build (s : List Body) :
    posList (build_celestial_maps s) = s.map fun b => (b.id, b.translation) := by
  unfold posList build_celestial_maps
  rw [List.map_map]
  rfl

/-- Closed form of the forecast loop on a working map with unique keys: the
final map is the iterated explicit step, and the recorded samples are, in
order, the `(entity, position)` rows of the map after 1, 2, …, `n` steps. -/
theorem generate_debug_points_loop_eq (tick : ℝ) (cfg : Universe) :
    ∀ (n : ℕ) (m : CelestialMap), (m.map Prod.fst).Nodup →
      generate_debug_points_loop tick cfg n m =
        some (advIter tick cfg n m,
          ((List.range n).map fun i => posList (advIter tick cfg (i + 1) m)).flatten) := by
  intro n
  induction n with
  | zero => intro m _; rfl
  | succ n ih =>
      intro m hnd
      have hnd' : ((advMap tick cfg m).map Prod.fst).Nodup := by
        rw [advMap_fst]; exact hnd
      have h1 : generate_debug_points_loop tick cfg (n + 1) m =
          (generate_debug_points_loop tick cfg n (advMap tick cfg m)).map fun p =>
            (p.1, posList (advMap tick cfg m) ++ p.2) := by
        rw [generate_debug_points_loop, forecast_step_eq tick cfg m hnd]
      rw [h1, ih (advMap tick cfg m) hnd']
      refine congrArg some (Prod.ext ?_ ?_)
      · rfl
      · dsimp only
        rw [List.range_succ_eq_map, List.map_cons, List.flatten_cons, List.map_map]
        rfl

theorem removeAssoc_perm (k : ℕ) :
    ∀ (l : List (ℕ × Option Vec3)) (v : Option Vec3) (l' : List (ℕ × Option Vec3)),
      removeAssoc k l = some (v, l') → l.Perm ((k, v) :: l') := by
  intro l
  induction l with
  | nil => intro v l' h; cases h
  | cons a rest ih =>
      intro v l' h
      obtain ⟨k', v'⟩ := a
      by_cases hk : k = k'
      · subst hk
        simp only [removeAssoc, if_pos rfl, Option.some.injEq, Prod.mk.injEq] at h
        obtain ⟨rfl, rfl⟩ := h
        exact List.Perm.refl _
      · simp only [removeAssoc, if_neg hk] at h
        cases hrest : removeAssoc k rest with
        | none => rw [hrest] at h; cases h
        | some p =>
            obtain ⟨p1, p2⟩ := p
            rw [hrest] at h
            simp only [Option.map_some', Option.some.injEq, Prod.mk.injEq] at h
            obtain ⟨rfl, rfl⟩ := h
            exact ((ih p1 p2 hrest).cons _).trans (List.Perm.swap _ _ _)

theorem removeAssoc_of_mem (k : ℕ) (v : Option Vec3) :
    ∀ l : List (ℕ × Option Vec3), (l.map Prod.fst).Nodup → (k, v) ∈ l →
      ∃ l', removeAssoc k l = some (v, l') := by
  intro l
  induction l with
  | nil => intro _ h; cases h
  | cons a rest ih =>
      intro hnd hmem
      obtain ⟨k', v'⟩ := a
      have hnd' := List.nodup_cons.mp hnd
      rcases List.mem_cons.mp hmem with heq | hmem'
      · obtain ⟨rfl, rfl⟩ : k = k' ∧ v = v' := by simpa using heq
        exact ⟨rest, by simp [removeAssoc]⟩
      · have hk : k ≠ k' := by
          intro h
          have hmm : k ∈ rest.map Prod.fst := List.mem_map.mpr ⟨(k, v), hmem', rfl⟩
          rw [h] at hmm
          exact hnd'.1 hmm
        obtain ⟨l', hl'⟩ := ih hnd'.2 hmem'
        exact ⟨(k', v') :: l', by simp [removeAssoc, if_neg hk, hl']⟩

/-- The `remove`-based application loop is insensitive to the velocity map's
iteration order: any permutation of the aligned map yields the same stores. -/
theorem applyVelocities_perm (tick : ℝ) (f : Body → Option Vec3) :
    ∀ (store : List Body) (vmap : List (ℕ × Option Vec3)),
      (vmap.map Prod.fst).Nodup →
      vmap.Perm (store.map fun b => (b.id, f b)) →
      applyVelocities tick vmap store =
        some (store.map fun b =>
          Body.mk b.id b.mass (f b) (ovAdd b.translation (ovSmul (f b) tick))) := by
  intro store
  induction store with
  | nil =>
      intro vmap _ hperm
      rw [List.map_nil] at hperm
      rw [hperm.eq_nil]
      rfl
  | cons b rest ih =>
      intro vmap hnd hperm
      have hperm' : vmap.Perm ((b.id, f b) :: rest.map fun x => (x.id, f x)) := by
        simpa using hperm
      have hmem : (b.id, f b) ∈ vmap := hperm'.mem_iff.mpr (List.mem_cons_self _ _)
      obtain ⟨l', hrm⟩ := removeAssoc_of_mem b.id (f b) vmap hnd hmem
      have hpermv : vmap.Perm ((b.id, f b) :: l') := removeAssoc_perm b.id vmap (f b) l' hrm
      have hl' : l'.Perm (rest.map fun x => (x.id, f x)) :=
        (hpermv.symm.trans hperm').cons_inv
      have hndl' : (l'.map Prod.fst).Nodup := by
        have hkeys := hpermv.map Prod.fst
        exact (List.nodup_cons.mp (hkeys.nodup_iff.mp hnd)).2
      simp only [applyVelocities, hrm]
      rw [ih l' hndl' hl']
      rfl

/-- The inner velocity accumulation is insensitive to the map's iteration
order (the pairwise contributions are summed, and addition of possibly
non-finite vectors is commutative with `none` absorbing). -/
theorem velFold_perm (tick g : ℝ) {m1 m2 : CelestialMap} (h : m1.Perm m2)
    (e : ℕ × CelestialBundle) : velFold tick g m1 e = velFold tick g m2 e := by
  unfold velFold
  exact h.foldl_eq'
    (fun x _ y _ z => by
      by_cases h1 : e.1 = x.1 <;> by_cases h2 : e.1 = y.1 <;>
        simp [h1, h2, ovAdd_right_comm])
    e.2.vel

theorem build_fst (s : List Body) :
    (build_celestial_maps s).map Prod.fst = s.map Body.id := by
  unfold build_celestial_maps
  rw [List.map_map]
  rfl

theorem advMap_length (tick : ℝ) (cfg : Universe) (m : CelestialMap) :
    (advMap tick cfg m).length = m.length :=
  List.length_map ..

theorem advIter_length (tick : ℝ) (cfg : Universe) (n : ℕ) (m : CelestialMap) :
    (advIter tick cfg n m).length = m.length := by
  induction n generalizing m with
  | zero => rfl
  | succ n ih => rw [advIter, ih, advMap_length]

theorem advIter_fst (tick : ℝ) (cfg : Universe) (n : ℕ) (m : CelestialMap) :
    (advIter tick cfg n m).map Prod.fst = m.map Prod.fst := by
  induction n generalizing m with
  | zero => rfl
  | succ n ih => rw [advIter, ih, advMap_fst]

theorem posList_length (m : CelestialMap) : (posList m).length = m.length :=
  List.length_map ..

theorem posList_cons (a : ℕ × CelestialBundle) (rest : CelestialMap) :
    posList (a :: rest) = (a.1, a.2.pos) :: posList rest := rfl

/-- On a map with unique keys containing a given id, the recorded samples of
one iteration hold exactly one row for that id. -/
theorem posList_filter_length (id0 : ℕ) :
    ∀ m : CelestialMap, (m.map Prod.fst).Nodup → id0 ∈ m.map Prod.fst →
      ((posList m).filter fun q => q.1 = id0).length = 1 := by
  intro m
  induction m with
  | nil => intro _ h; cases h
  | cons a rest ih =>
      intro hnd hmem
      have hnd' := List.nodup_cons.mp hnd
      by_cases ha : a.1 = id0
      · have hnone : ((posList rest).filter fun q => q.1 = id0) = [] := by
          refine List.filter_eq_nil_iff.mpr ?_
          intro q hq
          have hq1 : q.1 ∈ rest.map Prod.fst := by
            obtain ⟨eb, heb, rfl⟩ := List.mem_map.mp hq
            exact List.mem_map.mpr ⟨eb, heb, rfl⟩
          simp only [decide_eq_true_eq]
          intro hq2
          rw [hq2, ← ha] at hq1
          exact hnd'.1 hq1
        rw [posList_cons, List.filter_cons_of_pos (by simp [ha]), List.length_cons, hnone]
        rfl
      · have hmem' : id0 ∈ rest.map Prod.fst := by
          rcases List.mem_cons.mp hmem with h | h
          · exact absurd h.symm ha
          · exact h
        rw [posList_cons, List.filter_cons_of_neg (by simp [ha])]
        exact ih hnd'.2 hmem'

/-- The two named bodies of the spec's two-body example (section 8). -/
noncomputable def demoB0 : Body := Body.mk 0 100 (some (Vec3.mk 0 0 0)) (some (Vec3.mk 0 0 0))

noncomputable def demoB1 : Body :=
  Body.mk 1 1 (some (Vec3.mk 0 0 100)) (some (Vec3.mk 10 0 0))

noncomputable def demoStore : List Body := [demoB0, demoB1]

/-- A single body with nonzero velocity. -/
noncomputable def soloBody : Body := Body.mk 0 1 (some (Vec3.mk 1 0 0)) (some (Vec3.mk 0 0 0))

/-- Two bodies at exactly the same position. -/
noncomputable def coincidentStore : List Body :=
  [Body.mk 0 100 (some (Vec3.mk 0 0 0)) (some (Vec3.mk 0 0 0)),
   Body.mk 1 100 (some (Vec3.mk 0 0 0)) (some (Vec3.mk 0 0 0))]

/-- C2: one integration step computes every body's new velocity solely from
the pre-tick snapshot (simultaneous update — the snapshot map is built before
any body is mutated), and only afterwards advances each position by
`velocity_new * dt`: the live tick equals the spec's semi-implicit Euler step
on the snapshot.  Ids are unique in a live store (ECS invariant). -/
theorem c2_semi_implicit_euler (tick : ℝ) (cfg : Universe) (store : List Body)
    (_hnd : (store.map Body.id).Nodup) :
    update_celestial_bodies tick cfg store =
      some (semiImplicitEulerStep tick cfg.gravitational_constant store) :=
  update_celestial_bodies_eq tick cfg store

theorem c2_semi_implicit_euler_witness :
    update_celestial_bodies (1 / 34) Universe.default demoStore =
      some (semiImplicitEulerStep (1 / 34) Universe.default.gravitational_constant
        demoStore) :=
  c2_semi_implicit_euler (1 / 34) Universe.default demoStore (by decide)

/-- C5 counterexample: the claim says a single-body store is left with both
velocity and position unchanged by a tick; but a single body with nonzero
velocity has its position advanced, so the ticked store differs from the
original. -/
theorem c5_single_body_counterexample :
    update_celestial_bodies (1 / 34) Universe.default [soloBody] ≠ some [soloBody] := by
  rw [update_celestial_bodies_eq]
  have hstep :
      semiImplicitEulerStep (1 / 34) Universe.default.gravitational_constant [soloBody] =
        [Body.mk 0 1 (some (Vec3.mk 1 0 0)) (some (Vec3.mk (1 / 34) 0 0))] := by
    simp [semiImplicitEulerStep, specVelocity, soloBody, ovAdd, ovSmul, Vec3.add, Vec3.smul]
  rw [hstep]
  simp [soloBody, Vec3.mk.injEq]

/-- C5 amended: a single-body tick leaves the velocity unchanged (there is no
self-interaction term), and advances the position by exactly `velocity * dt`
— so the position is unchanged only when that displacement is zero. -/
theorem c5_single_body_amended (tick : ℝ) (cfg : Universe) (b : Body) :
    update_celestial_bodies tick cfg [b] =
      some [Body.mk b.id b.mass b.velocity
        (ovAdd b.translation (ovSmul b.velocity tick))] := by
  rw [update_celestial_bodies_eq]
  simp [semiImplicitEulerStep, specVelocity]

/-- C6: once the accumulated time reaches the configured interval, the
scheduler emits exactly one tick event, resets the accumulator to zero (not
to the remainder), and the payload is the configured nominal step
`1 / update_frequency_ms`, identical across any measured deltas — never the
wall-clock delta itself. -/
theorem c6_scheduler_fixed_step (elapsed delta interval : ℝ) (cfg : Universe)
    (h : interval ≤ elapsed + delta) :
    handle_delta elapsed delta interval cfg =
      (0, some (1 / (cfg.update_frequency_ms : ℝ)))
    ∧ ∀ elapsed' delta', interval ≤ elapsed' + delta' →
        (handle_delta elapsed' delta' interval cfg).2 =
          (handle_delta elapsed delta interval cfg).2 := by
  constructor
  · unfold handle_delta
    rw [if_pos h]
  · intro elapsed' delta' h'
    unfold handle_delta
    rw [if_pos h, if_pos h']

theorem c6_scheduler_fixed_step_witness :
    handle_delta 0 40 34 Universe.default =
      (0, some (1 / (Universe.default.update_frequency_ms : ℝ)))
    ∧ (handle_delta 21 14 34 Universe.default).2 =
        (handle_delta 0 40 34 Universe.default).2 :=
  ⟨(c6_scheduler_fixed_step 0 40 34 Universe.default (by norm_num)).1,
   (c6_scheduler_fixed_step 0 40 34 Universe.default (by norm_num)).2 21 14 (by norm_num)⟩

/-- C9: the force integrator is deterministic.  In the model, two invocations
on identical snapshots can differ only in the working map's `HashMap`
iteration order; any permutation of the snapshot map produces identical
per-body velocities and positions (exact arithmetic makes the accumulation
order immaterial). -/
theorem c9_integrator_deterministic (tick : ℝ) (cfg : Universe) (store : List Body)
    (m : CelestialMap) (hperm : m.Perm (build_celestial_maps store))
    (hnd : (store.map Body.id).Nodup) :
    update_bodies_with_map tick cfg m store = update_celestial_bodies tick cfg store := by
  rw [update_celestial_bodies_eq]
  unfold update_bodies_with_map
  rw [calc_velocities_eq_map]
  have hfix :
      (m.map fun e => (e.1, velFold tick cfg.gravitational_constant m e)) =
        m.map fun e =>
          (e.1, velFold tick cfg.gravitational_constant (build_celestial_maps store) e) := by
    congr 1
    funext e
    rw [velFold_perm tick cfg.gravitational_constant hperm e]
  rw [hfix]
  have hcanon :
      ((build_celestial_maps store).map fun e =>
          (e.1, velFold tick cfg.gravitational_constant (build_celestial_maps store) e)) =
        store.map fun b =>
          (b.id, specVelocity tick cfg.gravitational_constant store b) := by
    unfold build_celestial_maps
    rw [List.map_map]
    congr 1
    funext b
    simp only [Function.comp_apply]
    rw [show velFold tick cfg.gravitational_constant (List.map toBundle store) (toBundle b) =
        specVelocity tick cfg.gravitational_constant store b from
      velFold_build tick _ store b]
    rfl
  have hpermv :
      (m.map fun e =>
          (e.1, velFold tick cfg.gravitational_constant (build_celestial_maps store) e)).Perm
        (store.map fun b =>
          (b.id, specVelocity tick cfg.gravitational_constant store b)) := by
    rw [← hcanon]
    exact hperm.map _
  have hkeys : (m.map Prod.fst).Nodup := by
    have h2 := hperm.map Prod.fst
    rw [build_fst] at h2
    exact h2.nodup_iff.mpr hnd
  have hndv :
      ((m.map fun e =>
          (e.1, velFold tick cfg.gravitational_constant (build_celestial_maps store) e)).map
        Prod.fst).Nodup := by
    rw [List.map_map]
    exact hkeys
  exact applyVelocities_perm tick _ store _ hndv hpermv

theorem c9_integrator_deterministic_witness :
    update_bodies_with_map (1 / 34) Universe.default [toBundle demoB1, toBundle demoB0]
        demoStore =
      update_celestial_bodies (1 / 34) Universe.default demoStore :=
  c9_integrator_deterministic (1 / 34) Universe.default demoStore
    [toBundle demoB1, toBundle demoB0]
    (by exact List.Perm.swap (toBundle demoB0) (toBundle demoB1) []) (by decide)

/-- C10: every integration step — a live tick as well as one forecast
iteration — neither creates nor removes bodies and keeps every id and every
mass, in order; only velocities and positions are written. -/
theorem c10_step_preserves_ids_masses (tick : ℝ) (cfg : Universe) (store : List Body)
    (m : CelestialMap) (hndm : (m.map Prod.fst).Nodup) :
    (∃ s', update_celestial_bodies tick cfg store = some s'
        ∧ s'.map Body.id = store.map Body.id
        ∧ s'.map Body.mass = store.map Body.mass)
    ∧ ∃ m', forecast_step tick cfg m = some m'
        ∧ m'.map Prod.fst = m.map Prod.fst
        ∧ (m'.map fun e => e.2.mass) = m.map fun e => e.2.mass := by
  constructor
  · refine ⟨_, update_celestial_bodies_eq tick cfg store, ?_, ?_⟩
    · unfold semiImplicitEulerStep
      rw [List.map_map]
      rfl
    · unfold semiImplicitEulerStep
      rw [List.map_map]
      rfl
  · refine ⟨_, forecast_step_eq tick cfg m hndm, ?_, ?_⟩
    · exact advMap_fst tick cfg m
    · unfold advMap
      rw [List.map_map]
      rfl

theorem c10_step_preserves_ids_masses_witness :
    (∃ s', update_celestial_bodies (1 / 34) Universe.default demoStore = some s'
        ∧ s'.map Body.id = demoStore.map Body.id
        ∧ s'.map Body.mass = demoStore.map Body.mass)
    ∧ ∃ m', forecast_step (1 / 34) Universe.default (build_celestial_maps demoStore) = some m'
        ∧ m'.map Prod.fst = (build_celestial_maps demoStore).map Prod.fst
        ∧ (m'.map fun e => e.2.mass) =
            (build_celestial_maps demoStore).map fun e => e.2.mass :=
  c10_step_preserves_ids_masses (1 / 34) Universe.default demoStore
    (build_celestial_maps demoStore) (by decide)

/-- C3: running the forecaster (any key state, any configuration with a
positive number of forecast steps) returns the live store unchanged — the
system only ever reads the celestial query, the forecast runs on a private
copy of the snapshot. -/
theorem c3_forecaster_no_mutation (d c : Bool) (cfg : Universe) (store : List Body)
    (_hpos : 0 < cfg.debug_steps) :
    (generate_debug_points d c cfg store).1 = store := by
  unfold generate_debug_points
  split
  · rfl
  · split
    · rfl
    · split
      · rfl
      · rfl

theorem c3_forecaster_no_mutation_witness :
    (generate_debug_points true false Universe.default demoStore).1 = demoStore :=
  c3_forecaster_no_mutation true false Universe.default demoStore (by decide)

/-- C4 counterexample: the claim says a forced tick (manual single-step)
always applies one integration step regardless of the `active` flag and of a
scheduled tick event arriving in the same cycle.  But when a scheduled event
arrived while `active` is false, the reader takes the event branch, drops the
tick, and the forced request is never examined: the store comes back
unchanged, although one integration step would have changed it. -/
theorem c4_forced_tick_counterexample :
    update_celestial_bodies_event_reader [1 / 34] Universe.default true [soloBody] =
        some [soloBody]
    ∧ update_celestial_bodies (1 / (Universe.default.update_frequency_ms : ℝ))
        Universe.default [soloBody] ≠ some [soloBody] := by
  constructor
  · rfl
  · rw [update_celestial_bodies_eq]
    have hstep :
        semiImplicitEulerStep (1 / (Universe.default.update_frequency_ms : ℝ))
            Universe.default.gravitational_constant [soloBody] =
          [Body.mk 0 1 (some (Vec3.mk 1 0 0)) (some (Vec3.mk (1 / 34) 0 0))] := by
      simp [semiImplicitEulerStep, specVelocity, soloBody, ovAdd, ovSmul, Vec3.add,
        Vec3.smul, Universe.default]
    rw [hstep]
    simp [soloBody, Vec3.mk.injEq]

/-- C4 amended: with `active` false a scheduled tick event changes no body's
state; a forced tick applies exactly one integration step (at the nominal dt,
regardless of `active`) only in cycles where no scheduled tick event arrived;
when a scheduled event arrives while `active` is true, the last event's dt is
applied once; with neither an event nor a forced request, nothing changes. -/
theorem c4_gating_amended (events : List ℝ) (cfg : Universe) (tp : Bool)
    (store : List Body) :
    (cfg.active = false → events ≠ [] →
      update_celestial_bodies_event_reader events cfg tp store = some store)
    ∧ (update_celestial_bodies_event_reader [] cfg true store =
        update_celestial_bodies (1 / (cfg.update_frequency_ms : ℝ)) cfg store)
    ∧ (cfg.active = true → ∀ (t : ℝ) (ts : List ℝ), events = ts ++ [t] →
        update_celestial_bodies_event_reader events cfg tp store =
          update_celestial_bodies t cfg store)
    ∧ update_celestial_bodies_event_reader [] cfg false store = some store := by
  refine ⟨?_, rfl, ?_, rfl⟩
  · intro hact hne
    cases hl : events.getLast? with
    | none =>
        rw [List.getLast?_eq_none_iff] at hl
        exact absurd hl hne
    | some t => simp [update_celestial_bodies_event_reader, hl, hact]
  · intro hact t ts hev
    subst hev
    simp [update_celestial_bodies_event_reader, List.getLast?_concat, hact]

theorem c4_gating_amended_witness :
    update_celestial_bodies_event_reader [(2 : ℝ)] Universe.default true demoStore =
      some demoStore :=
  (c4_gating_amended [(2 : ℝ)] Universe.default true demoStore).1 rfl (by simp)

/-- C1: the spec mandates that the force kernel guard the exactly-coincident
case (skip the term or clamp the squared distance) so that integration never
produces a non-finite component.  The source kernel has no such guard: at
exactly equal positions it normalizes the zero vector and divides by a zero
squared distance — the non-finite result (`none`) — and one tick propagates
it into both bodies' velocity and position. -/
theorem c1_degenerate_distance_unguarded :
    calculate_dt_velocity Universe.default.gravitational_constant
        (some (Vec3.mk 0 0 0)) (some (Vec3.mk 0 0 0)) 100 = none
    ∧ update_celestial_bodies (1 / 34) Universe.default coincidentStore =
        some [Body.mk 0 100 none none, Body.mk 1 100 none none] := by
  constructor
  · simp [calculate_dt_velocity, Vec3.distance_squared, Vec3.sub, Vec3.length_squared]
  · rw [update_celestial_bodies_eq]
    simp [semiImplicitEulerStep, specVelocity, coincidentStore, spec_accel,
      Vec3.distance_squared, Vec3.sub, Vec3.length_squared]

/-- C8: each forecast iteration is exactly the live velocity-then-position
update, at the same nominal dt as the scheduled live ticks: the forecast loop
on the snapshot of a store computes the snapshot advanced `n` live steps and
records, in step order, every body's `(id, position)` after 1, …, `n` live
ticks; and any dt emitted by the scheduler is that same nominal step. -/
theorem c8_forecast_matches_live (cfg : Universe) (store : List Body) (n : ℕ)
    (hnd : (store.map Body.id).Nodup) :
    live_run (1 / (cfg.update_frequency_ms : ℝ)) cfg n store =
        some (stepIter (1 / (cfg.update_frequency_ms : ℝ)) cfg.gravitational_constant n
          store)
    ∧ generate_debug_points_loop (1 / (cfg.update_frequency_ms : ℝ)) cfg n
        (build_celestial_maps store) =
      some (build_celestial_maps
          (stepIter (1 / (cfg.update_frequency_ms : ℝ)) cfg.gravitational_constant n store),
        ((List.range n).map fun i =>
          (stepIter (1 / (cfg.update_frequency_ms : ℝ)) cfg.gravitational_constant (i + 1)
              store).map fun b => (b.id, b.translation)).flatten)
    ∧ ∀ elapsed delta interval dtv,
        (handle_delta elapsed delta interval cfg).2 = some dtv →
        dtv = 1 / (cfg.update_frequency_ms : ℝ) := by
  have hndm : ((build_celestial_maps store).map Prod.fst).Nodup := by
    rw [build_fst]
    exact hnd
  refine ⟨live_run_eq _ cfg n store, ?_, ?_⟩
  · rw [generate_debug_points_loop_eq _ cfg n _ hndm, advIter_build]
    refine congrArg some (Prod.ext rfl ?_)
    dsimp only
    have hfun :
        (fun i => posList (advIter (1 / (cfg.update_frequency_ms : ℝ)) cfg (i + 1)
            (build_celestial_maps store))) = fun i =>
          (stepIter (1 / (cfg.update_frequency_ms : ℝ)) cfg.gravitational_constant (i + 1)
              store).map fun b => (b.id, b.translation) := by
      funext i
      rw [advIter_build, posList_build]
    rw [hfun]
  · intro elapsed delta interval dtv h
    unfold handle_delta at h
    by_cases hc : interval ≤ elapsed + delta
    · rw [if_pos hc] at h
      simp only [Option.some.injEq] at h
      exact h.symm
    · rw [if_neg hc] at h
      simp at h

theorem c8_forecast_matches_live_witness :
    live_run (1 / (Universe.default.update_frequency_ms : ℝ)) Universe.default 3 demoStore =
      some (stepIter (1 / (Universe.default.update_frequency_ms : ℝ))
        Universe.default.gravitational_constant 3 demoStore) :=
  (c8_forecast_matches_live Universe.default demoStore 3 (by decide)).1

/-- C7: a forecast request on a store of `k` bodies with `N` configured steps
yields, per body id, exactly `N` recorded samples, and `k·N` samples in
total. -/
theorem c7_forecast_lengths (cfg : Universe) (store : List Body)
    (hnd : (store.map Body.id).Nodup) :
    ∃ ps, (generate_debug_points true false cfg store).2 = some ps
      ∧ (∀ id0 ∈ store.map Body.id,
          (ps.filter fun q => q.1 = id0).length = cfg.debug_steps)
      ∧ ps.length = store.length * cfg.debug_steps := by
  have hndm : ((build_celestial_maps store).map Prod.fst).Nodup := by
    rw [build_fst]
    exact hnd
  have hloop := generate_debug_points_loop_eq (1 / (cfg.update_frequency_ms : ℝ)) cfg
    cfg.debug_steps (build_celestial_maps store) hndm
  have hred : generate_debug_points true false cfg store =
      match generate_debug_points_loop (1 / (cfg.update_frequency_ms : ℝ)) cfg
        cfg.debug_steps (build_celestial_maps store) with
      | none => (store, none)
      | some p => (store, some p.2) := rfl
  refine ⟨((List.range cfg.debug_steps).map fun i =>
      posList (advIter (1 / (cfg.update_frequency_ms : ℝ)) cfg (i + 1)
        (build_celestial_maps store))).flatten, ?_, ?_, ?_⟩
  · rw [hred, hloop]
  · intro id0 hid
    rw [List.filter_flatten, List.length_flatten, List.map_map, List.map_map]
    have hone : ∀ i : ℕ,
        ((posList (advIter (1 / (cfg.update_frequency_ms : ℝ)) cfg (i + 1)
            (build_celestial_maps store))).filter fun q => q.1 = id0).length = 1 := by
      intro i
      apply posList_filter_length
      · rw [advIter_fst]
        exact hndm
      · rw [advIter_fst, build_fst]
        exact hid
    have hfun : ((List.length ∘ List.filter fun q => decide (q.1 = id0)) ∘
        fun i => posList (advIter (1 / (cfg.update_frequency_ms : ℝ)) cfg (i + 1)
          (build_celestial_maps store))) = fun _ : ℕ => 1 :=
      funext fun i => hone i
    rw [hfun, List.map_const', List.length_range, List.sum_replicate, smul_eq_mul,
      mul_one]
  · rw [List.length_flatten, List.map_map]
    have hlen : ∀ i : ℕ,
        (posList (advIter (1 / (cfg.update_frequency_ms : ℝ)) cfg (i + 1)
          (build_celestial_maps store))).length = store.length := by
      intro i
      rw [posList_length, advIter_length]
      simp [build_celestial_maps]
    have hfun : (List.length ∘
        fun i => posList (advIter (1 / (cfg.update_frequency_ms : ℝ)) cfg (i + 1)
          (build_celestial_maps store))) = fun _ : ℕ => store.length :=
      funext fun i => hlen i
    rw [hfun, List.map_const', List.length_range, List.sum_replicate, smul_eq_mul]
    exact Nat.mul_comm _ _

theorem c7_forecast_lengths_witness :
    ∃ ps, (generate_debug_points true false Universe.default demoStore).2 = some ps
      ∧ (∀ id0 ∈ demoStore.map Body.id,
          (ps.filter fun q => q.1 = id0).length = Universe.default.debug_steps)
      ∧ ps.length = demoStore.length * Universe.default.debug_steps :=
  c7_forecast_lengths Universe.default demoStore (by decide)

end Dazzle
